import Mathlib

/-!
Verification of the MACRS e-commerce recommender turn pipeline.

This file shallowly embeds the turn-processing core of the repository
(`macrs/state.py`, `macrs/reflection.py`, `macrs/planner.py`,
`macrs/agents/{ask,chitchat,recommend}.py`, `macrs/orchestrator.py`, and the
fusion part of `scripts/retrieve.py`) and proves properties of the embedding.

Modelling conventions:
- Python `float` scores and weights are modelled as `ℚ`.
- Python `Dict[str, str-like]` values are modelled as insertion-ordered
  association lists (`List (String × String)`); `dict.update` overwrites an
  existing key in place and appends new keys, as Python does.
- Calls to the external Generative Reasoning Service
  (`macrs.llm.generate_structured_output`, which returns a validated object or
  `None` and never raises) are modelled as `Option`-valued oracle parameters;
  prompt strings that are consumed only by that service are not reproduced.
- Code paths that `raise` are modelled with `Except String`.
- In-place mutation of the pydantic `ConversationState` object is modelled by
  explicit state passing; functions that mutate return the updated state.
-/

namespace Macrs

/-! ## Small Python-style helpers -/

/-- Python's `l[-n:]`: the last `n` elements of a list. -/
def takeLast {α : Type} (n : Nat) (l : List α) : List α :=
  l.drop (l.length - n)

/-- Python's `if len(l) > cap: l = l[-cap:]` bounded-buffer maintenance. -/
def capList {α : Type} (cap : Nat) (l : List α) : List α :=
  if l.length > cap then takeLast cap l else l

/-- ASCII lower-casing of one character (Python `str.lower` on the ASCII
range, the only range the code's closed filler set needs). -/
def py_lower_char (c : Char) : Char :=
  if 65 ≤ c.toNat && c.toNat ≤ 90 then Char.ofNat (c.toNat + 32) else c

/-- Python `s.lower()`. -/
def py_lower (s : String) : String := String.mk (s.data.map py_lower_char)

/-- Python whitespace test for `str.strip()`. -/
def py_is_space (c : Char) : Bool :=
  c == ' ' || c == '\t' || c == '\n' || c == '\r'

/-- Python `s.strip()`. -/
def py_strip (s : String) : String :=
  String.mk (((s.data.dropWhile py_is_space).reverse.dropWhile py_is_space).reverse)

/-- Insertion-ordered string dictionary (Python `Dict[str, str]`). -/
abbrev StrDict := List (String × String)

/-- Python `d.get(k)`. -/
def dictGet (d : StrDict) (k : String) : Option String :=
  (d.find? (fun kv => kv.1 == k)).map (fun kv => kv.2)

/-- Python truthiness of an optional string: `None` and `""` are falsy. -/
def truthy : Option String → Bool
  | none => false
  | some s => !s.isEmpty

/-- Python `d[k] = v`: overwrite an existing key in place, else append. -/
def dictSet (d : StrDict) (k v : String) : StrDict :=
  if d.any (fun kv => kv.1 == k) then
    d.map (fun kv => if kv.1 == k then (kv.1, v) else kv)
  else d ++ [(k, v)]

/-- Python `d.update(other)`. -/
def dictUpdate (d other : StrDict) : StrDict :=
  other.foldl (fun acc kv => dictSet acc kv.1 kv.2) d

/-- Python `max(l, default=0.0)` (also reused for the SQL window `max`). -/
def listMax (l : List ℚ) (dflt : ℚ) : ℚ :=
  match l with
  | [] => dflt
  | x :: xs => xs.foldl max x

/-- Python `min(l, default=0.0)` analogue (SQL window `min`). -/
def listMin (l : List ℚ) (dflt : ℚ) : ℚ :=
  match l with
  | [] => dflt
  | x :: xs => xs.foldl min x

/-! ## Data model (`macrs/models.py`, `macrs/state.py`) -/

/-- One `{user, system, act}` exchange of `dialogue_history`
(`ConversationState.append_dialogue` includes `act` only when truthy). -/
structure DialogueEntry where
  user : String
  system : String
  act : Option String := none
deriving DecidableEq

/-- `macrs.state.ConversationState` (pydantic model, field for field). -/
structure ConversationState where
  session_id : String
  turn_id : Nat := 0
  user_profile : StrDict := []
  browsing_history : List String := []
  negative_constraints : StrDict := []
  act_history : List String := []
  last_user_message : Option String := none
  last_system_response : Option String := none
  dialogue_history : List DialogueEntry := []
  agent_suggestions : List (String × List String) := []
  corrective_experiences : List String := []
  last_recommendation_failure_turn : Option Nat := none
  last_recommendation_turn : Option Nat := none
deriving DecidableEq

/-- `ConversationState.record_act`. -/
def record_act (s : ConversationState) (act : String) : ConversationState :=
  let appended := s.act_history ++ [act]
  { s with act_history := if appended.length > 50 then takeLast 50 appended else appended }

/-- `ConversationState.append_dialogue`. -/
def append_dialogue (s : ConversationState) (user_message system_response : String)
    (act : Option String) : ConversationState :=
  let entry : DialogueEntry :=
    { user := user_message, system := system_response,
      act := if truthy act then act else none }
  let appended := s.dialogue_history ++ [entry]
  { s with dialogue_history := if appended.length > 50 then takeLast 50 appended else appended }

/-- Metadata values (`Dict[str, Any]` payloads actually used by the code). -/
inductive MetaVal where
  | s (v : String)
  | n (v : Nat)
  | ls (v : List String)
deriving DecidableEq

/-- `macrs.models.ProductCandidate`. -/
structure ProductCandidate where
  id : String
  title : String
  brand : Option String := none
  description : Option String := none
  categories : Option (List String) := none
  price : Option ℚ := none
  currency : Option String := none
  score : ℚ := 0
deriving DecidableEq

/-- `macrs.models.AgentCandidate`. -/
structure AgentCandidate where
  candidate_id : String
  response : String
  score : ℚ := 0
  rationale : Option String := none
  slots : StrDict := []
  products : List ProductCandidate := []
deriving DecidableEq

/-- `macrs.models.AgentOutput` (`act` is one of "ask" | "recommend" | "chitchat"). -/
structure AgentOutput where
  agent_name : String
  act : String
  confidence : ℚ
  candidates : List AgentCandidate
  metadata : List (String × MetaVal) := []
deriving DecidableEq

/-- `macrs.models.AgentLLMOutput`. -/
structure AgentLLMOutput where
  confidence : ℚ
  candidates : List AgentCandidate
deriving DecidableEq

/-- `macrs.models.StrategyUpdate`. -/
structure StrategyUpdate where
  weight_updates : List (String × ℚ) := []
  notes : Option String := none
deriving DecidableEq

/-- `macrs.models.PlannerDecision`; its `metadata` dict always holds exactly
`agent_name` and `candidate_score`, flattened here into two typed fields. -/
structure PlannerDecision where
  selected_act : String
  selected_candidate_id : String
  selected_response : String
  strategy_update : StrategyUpdate
  meta_agent_name : String
  meta_candidate_score : ℚ
deriving DecidableEq

/-- `macrs.models.PlannerLLMOutput`. -/
structure PlannerLLMOutput where
  selected_act : String
  selected_candidate_id : String
  notes : Option String := none
deriving DecidableEq

/-- `macrs.models.InfoReflectionOutput`. -/
structure InfoReflectionOutput where
  current_demand : StrDict := []
  browsing_history : List String := []
  notes : Option String := none
deriving DecidableEq

/-- `macrs.models.StrategyReflectionOutput`. -/
structure StrategyReflectionOutput where
  suggestions : List (String × List String) := []
  corrective_experiences : List String := []
  error_summary : Option String := none
deriving DecidableEq

/-- `macrs.models.FailureDetectionOutput`. -/
structure FailureDetectionOutput where
  failed : Bool
  reason : Option String := none
deriving DecidableEq

/-- `macrs.models.ReflectionUpdate`. -/
structure ReflectionUpdate where
  inferred_feedback : List (String × String) := []
  weight_deltas : List (String × ℚ) := []
  preference_updates : StrDict := []
  notes : Option String := none
deriving DecidableEq

/-! ## ReflectionEngine (`macrs/reflection.py`) -/

/-- `ReflectionEngine._merge_history`: append items not already present,
de-duplicated against both prior history and items added in this pass. -/
def merge_history (bh : List String) (items : List String) : List String :=
  items.foldl (fun acc item => if item ∈ acc then acc else acc ++ [item]) bh

/-- `ReflectionEngine._normalize_suggestions`. -/
def normalize_suggestions (suggestions : List (String × List String)) :
    List (String × List String) :=
  ["ask", "recommend", "chitchat"].map (fun key =>
    let values := ((suggestions.find? (fun kv => kv.1 == key)).map (fun kv => kv.2)).getD []
    (key, (values.filter (fun v => !v.isEmpty && !(py_strip v).isEmpty)).map
      (fun v => py_strip v)))

/-- `ReflectionEngine._should_strategy_reflect`; the failure-detection call
(`_detect_failure`) is the oracle `failureOut`, defaulted to `failed = false`
when the reasoning service returns nothing. -/
def should_strategy_reflect (s : ConversationState)
    (failureOut : Option FailureDetectionOutput) : Bool :=
  match s.act_history.getLast? with
  | none => false
  | some a => a == "recommend" && (failureOut.getD { failed := false }).failed

/-- The `if info:` merge block of `ReflectionEngine.reflect` (lines 19-23). -/
def apply_info_reflection (s : ConversationState)
    (infoOut : Option InfoReflectionOutput) : ConversationState :=
  match infoOut with
  | none => s
  | some info =>
    let sA := if info.current_demand.isEmpty then s
      else { s with user_profile := dictUpdate s.user_profile info.current_demand }
    if info.browsing_history.isEmpty then sA
    else { sA with browsing_history := merge_history sA.browsing_history info.browsing_history }

/-- The `if strategy:` merge block of `ReflectionEngine.reflect` (lines 25-31). -/
def apply_strategy_reflection (s : ConversationState)
    (strategy : Option StrategyReflectionOutput) : ConversationState :=
  match strategy with
  | none => s
  | some st =>
    let sB := if st.suggestions.isEmpty then s
      else { s with agent_suggestions := normalize_suggestions st.suggestions }
    let sC := if st.corrective_experiences.isEmpty then sB
      else { sB with corrective_experiences :=
              takeLast 20 (sB.corrective_experiences ++ st.corrective_experiences) }
    { sC with last_recommendation_failure_turn := some s.turn_id }

/-- `ReflectionEngine.reflect`.  The three reasoning-service calls
(`_info_reflect`, `_strategy_reflect`, `_detect_failure`) are oracles; each
returns `none` on service failure and the corresponding sub-step degrades to a
no-op.  Returns the (in-place mutated) state together with the
`ReflectionUpdate` value. -/
def reflect (s : ConversationState) (user_feedback : String)
    (infoOut : Option InfoReflectionOutput)
    (strategyOut : Option StrategyReflectionOutput)
    (failureOut : Option FailureDetectionOutput) :
    ConversationState × ReflectionUpdate :=
  let strategy := if should_strategy_reflect s failureOut then strategyOut else none
  let s1 := apply_info_reflection s infoOut
  let s2 := apply_strategy_reflection s1 strategy
  (s2,
    { inferred_feedback := [("text", user_feedback)],
      weight_deltas := [],
      preference_updates := (infoOut.map (fun i => i.current_demand)).getD [],
      notes := strategy.bind (fun st => st.error_summary) })

/-! ## Planner (`macrs/planner.py`) -/

/-- `Planner._has_sufficient_preferences`. -/
def has_sufficient_preferences (profile : StrDict) : Bool :=
  if profile.isEmpty then false
  else (["category", "type", "product", "item"].any
          (fun k => profile.any (fun kv => kv.1 == k)))
       && decide (2 ≤ profile.length)

/-- `Planner._first_recommend_candidate`. -/
def first_recommend_candidate :
    List AgentOutput → Option (AgentOutput × AgentCandidate)
  | [] => none
  | o :: rest =>
    if o.act == "recommend" then
      match o.candidates.find? (fun c => !c.products.isEmpty) with
      | some c => some (o, c)
      | none => first_recommend_candidate rest
    else first_recommend_candidate rest

/-- The candidate-matching double loop of `Planner.select` (lines 68-77):
first candidate over all outputs whose `candidate_id` equals the id the
reasoning service chose. -/
def find_candidate (outputs : List AgentOutput) (cid : String) :
    Option (AgentOutput × AgentCandidate) :=
  match outputs with
  | [] => none
  | o :: rest =>
    match o.candidates.find? (fun c => c.candidate_id == cid) with
    | some c => some (o, c)
    | none => find_candidate rest cid

/-- The `PlannerDecision(...)` construction of `Planner.select` (lines 86-96):
the decision copies the chosen candidate's id and response text verbatim. -/
def decision_of (pair : AgentOutput × AgentCandidate) (llm : PlannerLLMOutput) :
    PlannerDecision :=
  { selected_act := pair.1.act,
    selected_candidate_id := pair.2.candidate_id,
    selected_response := pair.2.response,
    strategy_update := { weight_updates := [], notes := llm.notes },
    meta_agent_name := pair.1.agent_name,
    meta_candidate_score := pair.2.score }

/-- `Planner.select`.  The flattened candidate listing (products truncated to
5, descriptions to 300 chars) feeds only the reasoning-service prompt and is
therefore not reproduced; the service's reply is the oracle `llmOut`. -/
def select (outputs : List AgentOutput) (state : ConversationState)
    (llmOut : Option PlannerLLMOutput) : Except String PlannerDecision :=
  if outputs.isEmpty then .error "Planner received no candidates"
  else
    let sufficient := has_sufficient_preferences state.user_profile
    match llmOut with
    | none => .error "Planner LLM failed to return valid output"
    | some llm =>
      match find_candidate outputs llm.selected_candidate_id with
      | none => .error "Planner selected unknown candidate_id"
      | some (selected_output, selected) =>
        let pair :=
          if sufficient && !(selected_output.act == "recommend") then
            (first_recommend_candidate outputs).getD (selected_output, selected)
          else (selected_output, selected)
        .ok (decision_of pair llm)

/-! ## AskingAgent (`macrs/agents/ask.py`) -/

/-- The deterministic fallback candidate list of `AskingAgent.run`
(lines 25-67): one prompt per missing preference among category, price_max,
brand, in that order; a generic refinement prompt when none is missing. -/
def ask_fallback_candidates (preferences : StrDict) : List AgentCandidate :=
  let p1 : List AgentCandidate :=
    if truthy (dictGet preferences "category") then [] else
      [{ candidate_id := "ask_category",
         response := "What kind of product or category are you looking for?",
         score := 3/5,
         rationale := some "Category is missing; increases retrieval precision.",
         slots := [("missing", "category")] }]
  let p2 : List AgentCandidate :=
    if truthy (dictGet preferences "price_max") then [] else
      [{ candidate_id := "ask_budget",
         response := "Do you have a budget range in mind?",
         score := 11/20,
         rationale := some "Budget helps filter candidates.",
         slots := [("missing", "price_max")] }]
  let p3 : List AgentCandidate :=
    if truthy (dictGet preferences "brand") then [] else
      [{ candidate_id := "ask_brand",
         response := "Any preferred brand?",
         score := 1/2,
         rationale := some "Brand preference can raise relevance.",
         slots := [("missing", "brand")] }]
  let prompts := p1 ++ p2 ++ p3
  if prompts.isEmpty then
    [{ candidate_id := "ask_refine",
       response := "Anything specific you want to prioritize (price, brand, or features)?",
       score := 2/5,
       rationale := some "No obvious missing slots; offer refinement." }]
  else prompts

/-- `AskingAgent.run`; `llmOut` is the `_llm_generate` oracle. -/
def ask_run (user_message : String) (state : ConversationState)
    (llmOut : Option AgentLLMOutput) : AgentOutput :=
  match llmOut with
  | some l =>
    { agent_name := "asking", act := "ask", confidence := l.confidence,
      candidates := l.candidates, metadata := [("source", .s "llm")] }
  | none =>
    let prompts := ask_fallback_candidates state.user_profile
    { agent_name := "asking", act := "ask",
      confidence := min 1 (2/5 + (1/10) * (prompts.length : ℚ)),
      candidates := prompts,
      metadata := [("missing_slots", .ls (prompts.filterMap (fun c =>
        match dictGet c.slots "missing" with
        | some v => if v.isEmpty then none else some v
        | none => none)))] }

/-! ## ChitChatAgent (`macrs/agents/chitchat.py`) -/

/-- `ChitChatAgent.run`; `llmOut` is the `_llm_generate` oracle. -/
def chitchat_run (user_message : String) (state : ConversationState)
    (llmOut : Option AgentLLMOutput) : AgentOutput :=
  match llmOut with
  | some l =>
    { agent_name := "chitchat", act := "chitchat", confidence := l.confidence,
      candidates := l.candidates, metadata := [("source", .s "llm")] }
  | none =>
    { agent_name := "chitchat", act := "chitchat", confidence := 2/5,
      candidates :=
        [{ candidate_id := "chitchat_default",
           response := "Happy to help. If you tell me a bit more about what you like, I can narrow it down quickly.",
           score := 3/10,
           rationale := some "Maintains engagement and invites preference signals." }],
      metadata := [] }

/-! ## RecommendingAgent (`macrs/agents/recommend.py`) -/

/-- One result row of `scripts.retrieve.hybrid_search` as consumed by
`RecommendingAgent.run` (the row dict keyed id/title/brand/description/
categories/price/currency/final_score; the string-encoded `categories` column
is decoded at this boundary, so it is carried here as an optional list). -/
structure RetrievedItem where
  id : String
  title : String
  brand : Option String := none
  description : Option String := none
  categories : Option (List String) := none
  price : Option ℚ := none
  currency : Option String := none
  final_score : ℚ := 0
deriving DecidableEq

/-- The `ProductCandidate(...)` conversion loop of `RecommendingAgent.run`
(lines 58-77). -/
def to_product_candidate (item : RetrievedItem) : ProductCandidate :=
  { id := item.id, title := item.title, brand := item.brand,
    description := item.description, categories := item.categories,
    price := item.price, currency := item.currency, score := item.final_score }

/-- The closed filler-acknowledgement set of `RecommendingAgent._is_low_signal`. -/
def low_signal_set : List String :=
  ["no", "nope", "not sure",
   "i dont know", "i don" ++ String.singleton (Char.ofNat 39) ++ "t know",
   "maybe", "ok", "okay", "yes", "sure"]

/-- `RecommendingAgent._is_low_signal`. -/
def is_low_signal (user_message : String) : Bool :=
  let text := py_lower (py_strip user_message)
  if text.isEmpty || decide (text.length < 3) then true
  else low_signal_set.contains text

/-- `RecommendingAgent._build_query`. -/
def build_query (user_message : String) (preferences : StrDict) : String :=
  let parts := [user_message] ++ (["category", "brand"].filterMap (fun key =>
    match dictGet preferences key with
    | some v => if v.isEmpty then none else some v
    | none => none))
  py_strip (String.intercalate " " parts)

/-- Two-decimal rendering of a price, modelling Python's `f"{p:.2f}"`
(the exact rounding mode is immaterial to the properties proved here). -/
def fmt2 (q : ℚ) : String :=
  let c : Int := (q * 100 + 1/2).floor
  let a := c.natAbs
  let frac := a % 100
  let fracStr := if frac < 10 then "0" ++ toString frac else toString frac
  (if c < 0 then "-" else "") ++ toString (a / 100) ++ "." ++ fracStr

/-- `RecommendingAgent._format_response`. -/
def format_response (products : List ProductCandidate) : String :=
  if products.isEmpty then
    "I could not find good matches yet. Want to refine by brand or price range?"
  else
    let lines := ["Here are a few options you might like:"] ++
      products.enum.map (fun ip =>
        let product := ip.2
        let price := match product.price with
          | some p => (product.currency.getD "") ++ " " ++ fmt2 p
          | none => "Price N/A"
        let brand := match product.brand with
          | some b => if b.isEmpty then "" else b ++ " - "
          | none => ""
        toString (ip.1 + 1) ++ ". " ++ brand ++ product.title ++ " (" ++ price ++ ")")
    String.intercalate "\n" lines

/-- Python `max([p.score for p in products], default=0.0)`. -/
def max_score (l : List ℚ) : ℚ := listMax l 0

/-- `RecommendingAgent.run`.  The agent-local fallback cache
(`self._last_products`, an instance attribute initialised to `[]`) is passed
in and returned explicitly.  `retrieval` models `_retrieve_products`, which
raises when the tool-selection reasoning call fails or returns no tool call;
`llmOut` models `_llm_generate`, which is only consulted when `products` is
non-empty. -/
def recommend_run (cache : List RetrievedItem) (user_message : String)
    (state : ConversationState) (retrieval : Except String (List RetrievedItem))
    (llmOut : Option AgentLLMOutput) :
    Except String (AgentOutput × List RetrievedItem) :=
  match retrieval with
  | .error e => .error e
  | .ok retrieved =>
    let preferences := state.user_profile
    let query := build_query user_message preferences
    let results :=
      if retrieved.isEmpty && !cache.isEmpty then cache
      else if retrieved.isEmpty && is_low_signal user_message then cache
      else retrieved
    let cache2 := if !results.isEmpty then results else cache
    let products := results.map to_product_candidate
    let llmEff := if products.isEmpty then none else llmOut
    let fallback : List AgentCandidate × ℚ :=
      ([{ candidate_id := "rec_primary",
          response := format_response products,
          score := max_score (products.map (fun p => p.score)),
          products := products }],
       min 1 (3/10 + (1/10) * (products.length : ℚ)))
    let pair :=
      match llmEff with
      | some l =>
        if l.candidates.isEmpty then fallback
        else
          (l.candidates.enum.map (fun ic : Nat × AgentCandidate =>
            { ic.2 with
              candidate_id := if ic.2.candidate_id.isEmpty
                then "rec_" ++ toString (ic.1 + 1) else ic.2.candidate_id,
              products := products }),
           l.confidence)
      | none => fallback
    .ok ({ agent_name := "recommending", act := "recommend",
           confidence := pair.2, candidates := pair.1,
           metadata := [("query", .s query), ("result_count", .n products.length)] },
         cache2)

/-! ## Orchestrator (`macrs/orchestrator.py`) -/

/-- All reasoning-service / retrieval replies a single turn can consume, one
oracle per external call site. -/
structure TurnOracles where
  info : Option InfoReflectionOutput := none
  strategy : Option StrategyReflectionOutput := none
  failure : Option FailureDetectionOutput := none
  askLLM : Option AgentLLMOutput := none
  chatLLM : Option AgentLLMOutput := none
  recRetrieval : Except String (List RetrievedItem) := .ok []
  recLLM : Option AgentLLMOutput := none
  plannerLLM : Option PlannerLLMOutput := none

/-- `Orchestrator._finalize_state`. -/
def finalize_state (conv : ConversationState) (decision : PlannerDecision)
    (user_message : String) : ConversationState :=
  let c1 := record_act conv decision.selected_act
  let c2 := { c1 with
    turn_id := c1.turn_id + 1
    last_user_message := some user_message
    last_system_response := some decision.selected_response }
  let c3 := append_dialogue c2 user_message decision.selected_response
              (some decision.selected_act)
  if decision.selected_act == "recommend" then
    { c3 with last_recommendation_turn := some c3.turn_id }
  else c3

/-- `Orchestrator._reflect_before`: reflection runs only when
`last_system_response` is truthy; the mutation lands on the caller's state. -/
def reflect_before (state : ConversationState) (user_message : String)
    (o : TurnOracles) : ConversationState :=
  if truthy state.last_system_response then
    (reflect state user_message o.info o.strategy o.failure).1
  else state

/-- `Orchestrator.run_turn` over the compiled graph
`start → reflect → {ask, recommend, chitchat} → planner(+finalize)`.
Because the Python code mutates the caller's `ConversationState` (and the
recommend agent's `_last_products` attribute) in place, the state and cache
components are returned even when the turn raises: they are what remains
committed on the caller's objects after an abort. -/
def run_turn (state : ConversationState) (cache : List RetrievedItem)
    (user_message : String) (o : TurnOracles) :
    Except String PlannerDecision × ConversationState × List RetrievedItem :=
  let conv := reflect_before state user_message o
  let ask_output := ask_run user_message conv o.askLLM
  let chitchat_output := chitchat_run user_message conv o.chatLLM
  match recommend_run cache user_message conv o.recRetrieval o.recLLM with
  | .error e => (.error e, conv, cache)
  | .ok (recommend_output, cache2) =>
    match select [ask_output, recommend_output, chitchat_output] conv o.plannerLLM with
    | .error e => (.error e, conv, cache2)
    | .ok decision =>
      (.ok decision, finalize_state conv decision user_message, cache2)

/-- A sequence of turns driven through one orchestrator (states are threaded
through whether or not the individual turn aborts, as the in-place mutation
semantics dictates). -/
def run_turns (state : ConversationState) (cache : List RetrievedItem) :
    List (String × TurnOracles) → ConversationState × List RetrievedItem
  | [] => (state, cache)
  | (msg, o) :: rest =>
    let r := run_turn state cache msg o
    run_turns r.2.1 r.2.2 rest

/-! ## Hybrid retrieval fusion (`scripts/retrieve.py`, `hybrid_search` SQL) -/

/-- The `dense_norm` / `sparse_norm` CTEs: per-query min-max normalisation of
`(id, score)` rows into [0,1]; a constant score column normalises to 1.0. -/
def minmax_norm (rows : List (String × ℚ)) : List (String × ℚ) :=
  if rows.isEmpty then []
  else
    let scores := rows.map (fun r => r.2)
    let mx := listMax scores 0
    let mn := listMin scores 0
    rows.map (fun r => (r.1, if mx = mn then 1 else (r.2 - mn) / (mx - mn)))

/-- The `merged` CTE: `FULL OUTER JOIN ... USING (id)` of the two normalised
sides, a side missing an id contributing 0 (`COALESCE`).  The row order of
the join is not specified by SQL; validity of an output is stated up to
permutation below. -/
def full_outer_join (d s : List (String × ℚ)) : List (String × ℚ × ℚ) :=
  d.map (fun r => (r.1, r.2, ((s.find? (fun x => x.1 == r.1)).map (fun x => x.2)).getD 0))
  ++ (s.filter (fun x => !(d.any (fun r => r.1 == x.1)))).map (fun x => (x.1, 0, x.2))

/-- One row of the final SELECT, restricted to the scoring columns. -/
structure MergedRow where
  id : String
  dense_score : ℚ
  sparse_score : ℚ
  final_score : ℚ
deriving DecidableEq

/-- The joined rows with fusion score `alpha * dense + beta * sparse`. -/
def merged_rows (alpha beta : ℚ) (dense sparse : List (String × ℚ)) :
    List MergedRow :=
  (full_outer_join (minmax_norm dense) (minmax_norm sparse)).map (fun r =>
    { id := r.1, dense_score := r.2.1, sparse_score := r.2.2,
      final_score := alpha * r.2.1 + beta * r.2.2 })

/-- What the final `ORDER BY final_score DESC LIMIT k` guarantees: `out` is a
valid result of `hybrid_search` when it is the `k`-prefix of some
score-descending arrangement of the merged rows.  SQL fixes no order among
rows with equal `final_score`, so validity is a relation, not a function. -/
def is_hybrid_output (alpha beta : ℚ) (k : Nat)
    (dense sparse : List (String × ℚ)) (out : List MergedRow) : Prop :=
  ∃ l, (merged_rows alpha beta dense sparse).Perm l ∧
    l.Pairwise (fun a b => b.final_score ≤ a.final_score) ∧
    out = l.take k

/-- The ordering the specification asserts: descending fusion score with ties
broken by ascending product id. -/
def spec_row_before (a b : MergedRow) : Bool :=
  decide (b.final_score < a.final_score)
  || (a.final_score == b.final_score && (compare a.id b.id).isLE)

/-- Insertion step for `spec_sort_rows`. -/
def spec_insert_row (a : MergedRow) : List MergedRow → List MergedRow
  | [] => [a]
  | b :: bs => if spec_row_before a b then a :: b :: bs else b :: spec_insert_row a bs

/-- Insertion sort by `spec_row_before` (total order, hence deterministic). -/
def spec_sort_rows : List MergedRow → List MergedRow
  | [] => []
  | a :: rest => spec_insert_row a (spec_sort_rows rest)

/-- The single output the specification claims `hybrid_search` produces:
merged rows sorted descending by fusion score, ties broken by id, first `k`. -/
def spec_hybrid_output (alpha beta : ℚ) (k : Nat)
    (dense sparse : List (String × ℚ)) : List MergedRow :=
  (spec_sort_rows (merged_rows alpha beta dense sparse)).take k

/-! ## Strategy weights -/

/-- Python `d.get(k, 0.0)` over a rational-valued dict (delta lookups). -/
def rat_dict_get (d : List (String × ℚ)) (k : String) : ℚ :=
  ((d.find? (fun kv => kv.1 == k)).map (fun kv => kv.2)).getD 0

/-- Modelled from the spec: `ConversationState` in `macrs/state.py` carries no
`strategy_weights` field, although the spec's data model lists one and
`scripts/chat.py` reads `state.strategy_weights`; the field and its
maintenance are missing from the sources.  Modelled from the spec's words: a
mapping act → weight, all values non-negative and summing to 1, maintained by
weight renormalization when a delta update is folded in (deltas are added,
results clamped at 0, then the vector is renormalised; a vanishing total
falls back to the uniform distribution). -/
def apply_weight_deltas (weights deltas : List (String × ℚ)) : List (String × ℚ) :=
  let raw := weights.map (fun kv => (kv.1, max 0 (kv.2 + rat_dict_get deltas kv.1)))
  let total := (raw.map (fun kv => kv.2)).sum
  if total = 0 then weights.map (fun kv => (kv.1, (1 : ℚ) / weights.length))
  else raw.map (fun kv => (kv.1, kv.2 / total))

/-! ## Concrete instances used by witnesses and counterexamples -/

/-- A plain ask candidate (planner witness input). -/
def w4_cand : AgentCandidate :=
  { candidate_id := "ask_category", response := "What kind of product?", score := 3/5 }

/-- A one-candidate ask output (planner witness input). -/
def w4_out : AgentOutput :=
  { agent_name := "asking", act := "ask", confidence := 1/2, candidates := [w4_cand] }

/-- A fresh conversation state (planner witness input). -/
def w4_state : ConversationState := { session_id := "w4" }

/-- A reasoning-service choice naming the offered candidate. -/
def w4_llm : PlannerLLMOutput :=
  { selected_act := "ask", selected_candidate_id := "ask_category" }

/-- A retrieved product carried by a recommend candidate. -/
def c6_prod : ProductCandidate :=
  { id := "k1", title := "Chef Knife", score := 1/2 }

/-- Recommend candidate WITHOUT products, offered first. -/
def c6_candA : AgentCandidate :=
  { candidate_id := "rec_a", response := "Plain reply", score := 1/2 }

/-- Recommend candidate WITH a product, offered second. -/
def c6_candB : AgentCandidate :=
  { candidate_id := "rec_b", response := "Knife reply", score := 3/5,
    products := [c6_prod] }

/-- A recommend output whose first product-carrying candidate is `c6_candB`. -/
def c6_out : AgentOutput :=
  { agent_name := "recommending", act := "recommend", confidence := 1/2,
    candidates := [c6_candA, c6_candB] }

/-- A state whose stored preferences satisfy the sufficiency predicate. -/
def c6_state : ConversationState :=
  { session_id := "c6", user_profile := [("category", "knives"), ("brand", "Global")] }

/-- The reasoning service picks the productless recommend candidate. -/
def c6_llm : PlannerLLMOutput :=
  { selected_act := "recommend", selected_candidate_id := "rec_a" }

/-- An ask candidate for the C6 witness run. -/
def c6_ask_cand : AgentCandidate :=
  { candidate_id := "ask_1", response := "Which brand?", score := 2/5 }

/-- An ask output for the C6 witness run. -/
def c6_ask_out : AgentOutput :=
  { agent_name := "asking", act := "ask", confidence := 1/2,
    candidates := [c6_ask_cand] }

/-- The reasoning service picks the ask candidate (non-recommend act). -/
def c6_llm_ask : PlannerLLMOutput :=
  { selected_act := "ask", selected_candidate_id := "ask_1" }

/-- State for the C7 witness: last act is a recommendation. -/
def w7_state : ConversationState :=
  { session_id := "w7", turn_id := 3, act_history := ["ask", "recommend"],
    corrective_experiences := ["old experience"] }

/-- Strategy-reflection output for the C7 witness. -/
def w7_strat : StrategyReflectionOutput :=
  { suggestions := [("ask", ["be specific"]), ("recommend", ["vary brands"])],
    corrective_experiences := ["avoid repeating rejected items"] }

/-- Mid-conversation state for the C1 run: a previous system response exists,
so the reflect-before node fires. -/
def c1_state : ConversationState :=
  { session_id := "c1", turn_id := 1, act_history := ["chitchat"],
    last_system_response := some "Earlier reply" }

/-- Oracles for the C1 run: preference reflection succeeds, the planner's
reasoning call fails (turn aborts). -/
def c1_oracles : TurnOracles :=
  { info := some { current_demand := [("category", "knives")] },
    plannerLLM := none }

/-- Fresh state for the C8 witness turn. -/
def w8_state : ConversationState := { session_id := "w8" }

/-- Oracles for the C8 witness turn: agent LLMs disabled, planner picks the
offered `ask_category` candidate. -/
def w8_oracles : TurnOracles :=
  { plannerLLM := some { selected_act := "ask",
                         selected_candidate_id := "ask_category" } }

/-- The decision the C8 witness turn produces. -/
def w8_decision : PlannerDecision :=
  { selected_act := "ask", selected_candidate_id := "ask_category",
    selected_response := "What kind of product or category are you looking for?",
    strategy_update := {}, meta_agent_name := "asking",
    meta_candidate_score := 3/5 }

/-- A product cached from an earlier retrieval (C3 run). -/
def c3_cached : RetrievedItem :=
  { id := "p1", title := "Chef Knife", final_score := 9/10 }

/-- State for the C3 run. -/
def c3_state : ConversationState := { session_id := "c3" }

/-- The product retrieved during the first session's turn (C10 run). -/
def w10_item : RetrievedItem :=
  { id := "g1", title := "Gaming Laptop", final_score := 4/5 }

/-- First session (C10 run). -/
def w10_s1 : ConversationState := { session_id := "alice" }

/-- Second, distinct session (C10 run). -/
def w10_s2 : ConversationState := { session_id := "bob" }

/-- First C10 turn: session 1 retrieves the product with an empty cache. -/
def w10_run1 : Except String (AgentOutput × List RetrievedItem) :=
  recommend_run [] "laptops" w10_s1 (.ok [w10_item]) none

/-- Output of the first C10 turn. -/
def w10_out1 : AgentOutput :=
  match w10_run1 with
  | .ok pr => pr.1
  | .error _ => { agent_name := "", act := "", confidence := 0, candidates := [] }

/-- Second C10 turn: session 2, empty retrieval, the same agent instance. -/
def w10_run2 : Except String (AgentOutput × List RetrievedItem) :=
  recommend_run [w10_item] "anything else" w10_s2 (.ok []) none

/-- Output of the second C10 turn. -/
def w10_out2 : AgentOutput :=
  match w10_run2 with
  | .ok pr => pr.1
  | .error _ => { agent_name := "", act := "", confidence := 0, candidates := [] }

/-! ## General lemmas -/

theorem sum_map_const {α : Type} (l : List α) (c : ℚ) :
    (l.map (fun _ => c)).sum = l.length * c := by
  induction l with
  | nil => simp
  | cons x xs ih =>
    simp only [List.map_cons, List.sum_cons, ih, List.length_cons]
    push_cast
    ring

theorem sum_map_div (l : List ℚ) (c : ℚ) :
    (l.map (fun x => x / c)).sum = l.sum / c := by
  induction l with
  | nil => simp
  | cons x xs ih => simp [ih, add_div]

theorem uniform_weights_sum (l : List (String × ℚ)) (h : l ≠ []) :
    ((l.map (fun kv => (kv.1, (1 : ℚ) / l.length))).map (fun kv => kv.2)).sum = 1 := by
  have hlen : (l.length : ℚ) ≠ 0 :=
    Nat.cast_ne_zero.mpr (fun hw => h (List.length_eq_zero.mp hw))
  rw [List.map_map]
  have hcomp : ((fun kv : String × ℚ => kv.2) ∘
      (fun kv : String × ℚ => (kv.1, (1 : ℚ) / l.length)))
      = (fun _ : String × ℚ => (1 : ℚ) / l.length) := rfl
  rw [hcomp, sum_map_const, mul_one_div, div_self hlen]

theorem renorm_weights (raw : List (String × ℚ)) (hn : ∀ kv ∈ raw, 0 ≤ kv.2)
    (htot : (raw.map (fun kv => kv.2)).sum ≠ 0) :
    (∀ kv ∈ raw.map (fun kv => (kv.1, kv.2 / (raw.map (fun kv => kv.2)).sum)), 0 ≤ kv.2) ∧
    ((raw.map (fun kv => (kv.1, kv.2 / (raw.map (fun kv => kv.2)).sum))).map
        (fun kv => kv.2)).sum = 1 := by
  have hpos : 0 < (raw.map (fun kv => kv.2)).sum := by
    refine lt_of_le_of_ne (List.sum_nonneg ?_) (Ne.symm htot)
    intro x hx
    obtain ⟨kv0, hkv0, rfl⟩ := List.mem_map.mp hx
    exact hn kv0 hkv0
  constructor
  · intro kv hkv
    obtain ⟨kv0, hkv0, rfl⟩ := List.mem_map.mp hkv
    exact div_nonneg (hn kv0 hkv0) hpos.le
  · rw [List.map_map]
    have hcomp : ((fun kv : String × ℚ => kv.2) ∘
        (fun kv : String × ℚ => (kv.1, kv.2 / (raw.map (fun kv => kv.2)).sum)))
        = (fun kv : String × ℚ => kv.2 / (raw.map (fun kv => kv.2)).sum) := rfl
    rw [hcomp]
    have hs : (raw.map (fun kv : String × ℚ =>
        kv.2 / (raw.map (fun kv => kv.2)).sum))
        = ((raw.map (fun kv : String × ℚ => kv.2)).map
            (fun x => x / (raw.map (fun kv => kv.2)).sum)) := by
      rw [List.map_map]
      rfl
    rw [hs, sum_map_div, div_self htot]

/-! ## C2: strategy-weight invariant (spec-modelled) -/

/-- C2: after folding any delta update into a non-empty strategy-weight map,
every weight is non-negative and the weights sum to 1 (exactly, in ℚ). -/
theorem C2_theorem (weights deltas : List (String × ℚ)) (h : weights ≠ []) :
    (∀ kv ∈ apply_weight_deltas weights deltas, 0 ≤ kv.2) ∧
    ((apply_weight_deltas weights deltas).map (fun kv => kv.2)).sum = 1 := by
  have hraw_nonneg : ∀ kv ∈ weights.map (fun kv =>
      (kv.1, max 0 (kv.2 + rat_dict_get deltas kv.1))), 0 ≤ kv.2 := by
    intro kv hkv
    obtain ⟨kv0, _, rfl⟩ := List.mem_map.mp hkv
    exact le_max_left 0 _
  simp only [apply_weight_deltas]
  by_cases htot : ((weights.map (fun kv =>
      (kv.1, max 0 (kv.2 + rat_dict_get deltas kv.1)))).map (fun kv => kv.2)).sum = 0
  · rw [if_pos htot]
    refine ⟨?_, uniform_weights_sum weights h⟩
    intro kv hkv
    obtain ⟨kv0, _, rfl⟩ := List.mem_map.mp hkv
    positivity
  · rw [if_neg htot]
    exact renorm_weights _ hraw_nonneg htot

/-- C2 witness: the invariant holds for the uniform three-act weighting after
a concrete delta update. -/
theorem C2_witness :
    (∀ kv ∈ apply_weight_deltas
        [("ask", (1 : ℚ)/3), ("recommend", 1/3), ("chitchat", 1/3)]
        [("recommend", 1/10)], 0 ≤ kv.2) ∧
    ((apply_weight_deltas
        [("ask", (1 : ℚ)/3), ("recommend", 1/3), ("chitchat", 1/3)]
        [("recommend", 1/10)]).map (fun kv => kv.2)).sum = 1 :=
  C2_theorem _ _ (by decide)

/-! ## C9: deterministic Ask fallback -/

/-- C9: when the reasoning service fails (`llmOut = none`), `AskingAgent.run`
returns one candidate per missing profile key among category, price_max,
brand, in that priority order with scores 0.6, 0.55, 0.5; a single generic
refinement candidate at 0.4 when none is missing; confidence is
`min(1.0, 0.4 + 0.1 * candidate_count)`; and on an empty profile (the spec's
Scenario A, message "hi") the top candidate is `ask_category` at 0.6. -/
theorem C9_theorem (state : ConversationState) (user_message : String) :
    ((ask_run user_message state none).candidates.map
        (fun c => (c.candidate_id, c.score)) =
      (let missing :=
        ([("category", ("ask_category", (3 : ℚ)/5)),
          ("price_max", ("ask_budget", (11 : ℚ)/20)),
          ("brand", ("ask_brand", (1 : ℚ)/2))].filter
            (fun kv => !truthy (dictGet state.user_profile kv.1))).map
          (fun kv => kv.2)
       if missing.isEmpty then [("ask_refine", (2 : ℚ)/5)] else missing)) ∧
    (ask_run user_message state none).confidence =
      min 1 (2/5 + (1/10) *
        ((ask_run user_message state none).candidates.length : ℚ)) ∧
    (ask_run "hi" { session_id := "scenario-a" } none).candidates.head?.map
        (fun c => (c.candidate_id, c.score)) = some ("ask_category", 3/5) := by
  refine ⟨?_, ?_, by simp [ask_run, ask_fallback_candidates, truthy, dictGet]⟩ <;>
  · cases h1 : truthy (dictGet state.user_profile "category") <;>
    cases h2 : truthy (dictGet state.user_profile "price_max") <;>
    cases h3 : truthy (dictGet state.user_profile "brand") <;>
    simp [ask_run, ask_fallback_candidates, h1, h2, h3, List.filter]

/-! ## Planner lemmas -/

theorem find_candidate_none_iff (outputs : List AgentOutput) (cid : String) :
    find_candidate outputs cid = none ↔
    ∀ o ∈ outputs, ∀ c ∈ o.candidates, c.candidate_id ≠ cid := by
  induction outputs with
  | nil => simp [find_candidate]
  | cons o0 rest ih =>
    cases hfind : o0.candidates.find? (fun c => c.candidate_id == cid) with
    | some c0 =>
      have hc := List.find?_some hfind
      have hmem := List.mem_of_find?_eq_some hfind
      simp only [find_candidate, hfind]
      constructor
      · intro h; cases h
      · intro h
        exact absurd (by simpa using hc) (h o0 (List.mem_cons_self o0 rest) c0 hmem)
    | none =>
      simp only [find_candidate, hfind]
      rw [ih]
      constructor
      · intro h o' ho' c' hc'
        rcases List.mem_cons.mp ho' with rfl | ho'
        · have := List.find?_eq_none.mp hfind c' hc'
          simpa using this
        · exact h o' ho' c' hc'
      · intro h o' ho' c' hc'
        exact h o' (List.mem_cons_of_mem _ ho') c' hc'

theorem find_candidate_some (outputs : List AgentOutput) (cid : String)
    (o : AgentOutput) (c : AgentCandidate)
    (h : find_candidate outputs cid = some (o, c)) :
    o ∈ outputs ∧ c ∈ o.candidates ∧ c.candidate_id = cid := by
  induction outputs with
  | nil => cases h
  | cons o0 rest ih =>
    simp only [find_candidate] at h
    cases hfind : o0.candidates.find? (fun c => c.candidate_id == cid) with
    | some c0 =>
      rw [hfind] at h
      obtain ⟨h1, h2⟩ : o0 = o ∧ c0 = c := by
        have := Option.some.inj h
        exact ⟨congrArg Prod.fst this, congrArg Prod.snd this⟩
      subst h1; subst h2
      refine ⟨List.mem_cons_self _ _, List.mem_of_find?_eq_some hfind, ?_⟩
      simpa using List.find?_some hfind
    | none =>
      rw [hfind] at h
      have := ih h
      exact ⟨List.mem_cons_of_mem _ this.1, this.2⟩

theorem first_recommend_some (outputs : List AgentOutput)
    (o : AgentOutput) (c : AgentCandidate)
    (h : first_recommend_candidate outputs = some (o, c)) :
    o ∈ outputs ∧ c ∈ o.candidates ∧ o.act = "recommend" ∧ c.products ≠ [] := by
  induction outputs with
  | nil => cases h
  | cons o0 rest ih =>
    simp only [first_recommend_candidate] at h
    by_cases hact : o0.act == "recommend"
    · rw [if_pos hact] at h
      cases hfind : o0.candidates.find? (fun c => !c.products.isEmpty) with
      | some c0 =>
        rw [hfind] at h
        obtain ⟨h1, h2⟩ : o0 = o ∧ c0 = c := by
          have := Option.some.inj h
          exact ⟨congrArg Prod.fst this, congrArg Prod.snd this⟩
        subst h1; subst h2
        refine ⟨List.mem_cons_self _ _, List.mem_of_find?_eq_some hfind,
          by simpa using eq_of_beq hact, ?_⟩
        have := List.find?_some hfind
        simpa [List.isEmpty_iff] using this
      | none =>
        rw [hfind] at h
        have := ih h
        exact ⟨List.mem_cons_of_mem _ this.1, this.2⟩
    · rw [if_neg hact] at h
      have := ih h
      exact ⟨List.mem_cons_of_mem _ this.1, this.2⟩

/-! ## C4: planner failure modes and selection soundness -/

/-- C4: `Planner.select` fails exactly when the outputs sequence is empty,
when the reasoning service produces no valid choice, or when the chosen
`candidate_id` matches no offered candidate; on normal return the decision's
`selected_candidate_id` is the id of an offered candidate and
`selected_response` is that candidate's response text verbatim. -/
theorem C4_theorem (outputs : List AgentOutput) (state : ConversationState)
    (llmOut : Option PlannerLLMOutput) :
    ((∃ e, select outputs state llmOut = .error e) ↔
      (outputs = [] ∨ llmOut = none ∨
        ∃ llm, llmOut = some llm ∧
          ∀ o ∈ outputs, ∀ c ∈ o.candidates,
            c.candidate_id ≠ llm.selected_candidate_id)) ∧
    (∀ d, select outputs state llmOut = .ok d →
      ∃ o ∈ outputs, ∃ c ∈ o.candidates,
        d.selected_candidate_id = c.candidate_id ∧
        d.selected_response = c.response) := by
  by_cases hout : outputs = []
  · subst hout
    constructor
    · simp [select]
    · intro d h
      simp [select] at h
  · have hne : outputs.isEmpty = false := by
      cases outputs with
      | nil => exact absurd rfl hout
      | cons a l => rfl
    constructor
    · cases llmOut with
      | none =>
        have hsel : select outputs state none =
            .error "Planner LLM failed to return valid output" := by
          simp [select, hne]
        rw [hsel]
        constructor
        · intro _
          exact Or.inr (Or.inl rfl)
        · intro _
          exact ⟨_, rfl⟩
      | some llm =>
        cases hfind : find_candidate outputs llm.selected_candidate_id with
        | none =>
          have hsel : select outputs state (some llm) =
              .error "Planner selected unknown candidate_id" := by
            simp [select, hne, hfind]
          rw [hsel]
          constructor
          · intro _
            exact Or.inr (Or.inr ⟨llm, rfl, (find_candidate_none_iff _ _).mp hfind⟩)
          · intro _
            exact ⟨_, rfl⟩
        | some pr =>
          obtain ⟨o0, c0⟩ := pr
          have hsel : ∃ d0, select outputs state (some llm) = .ok d0 := by
            simp only [select, hne, Bool.false_eq_true, if_false, hfind]
            exact ⟨_, rfl⟩
          obtain ⟨d0, hd0⟩ := hsel
          rw [hd0]
          constructor
          · rintro ⟨e, he⟩
            exact Except.noConfusion he
          · rintro (h1 | h2 | ⟨llm', hllm', hall⟩)
            · exact absurd h1 hout
            · exact Option.noConfusion h2
            · cases Option.some.inj hllm'
              exact absurd ((find_candidate_none_iff _ _).mpr hall)
                (by simp [hfind])
    · intro d h
      cases llmOut with
      | none => simp [select, hne] at h
      | some llm =>
        cases hfind : find_candidate outputs llm.selected_candidate_id with
        | none => simp [select, hne, hfind] at h
        | some pr =>
          obtain ⟨o0, c0⟩ := pr
          have hmem0 := find_candidate_some _ _ _ _ hfind
          simp only [select, hne, Bool.false_eq_true, if_false, hfind] at h
          by_cases hifc : (has_sufficient_preferences state.user_profile
              && !(o0.act == "recommend")) = true
          · rw [if_pos hifc] at h
            cases hfr : first_recommend_candidate outputs with
            | some pr1 =>
              obtain ⟨o1, c1⟩ := pr1
              rw [hfr] at h
              have hmem1 := first_recommend_some _ _ _ hfr
              have hd : d = decision_of (o1, c1) llm := by
                simpa using (Except.ok.inj h).symm
              subst hd
              exact ⟨o1, hmem1.1, c1, hmem1.2.1, rfl, rfl⟩
            | none =>
              rw [hfr] at h
              have hd : d = decision_of (o0, c0) llm := by
                simpa using (Except.ok.inj h).symm
              subst hd
              exact ⟨o0, hmem0.1, c0, hmem0.2.1, rfl, rfl⟩
          · rw [if_neg hifc] at h
            have hd : d = decision_of (o0, c0) llm := (Except.ok.inj h).symm
            subst hd
            exact ⟨o0, hmem0.1, c0, hmem0.2.1, rfl, rfl⟩

/-- C4 witness: a concrete successful selection lands on an offered candidate
with its verbatim response. -/
theorem C4_witness :
    ∃ o ∈ [w4_out], ∃ c ∈ o.candidates,
      (decision_of (w4_out, w4_cand) w4_llm).selected_candidate_id = c.candidate_id ∧
      (decision_of (w4_out, w4_cand) w4_llm).selected_response = c.response :=
  (C4_theorem [w4_out] w4_state (some w4_llm)).2
    (decision_of (w4_out, w4_cand) w4_llm) (by rfl)

/-! ## C6: the sufficiency override -/

/-- C6 counterexample: with sufficient stored preferences and a Recommend
output offering a product-carrying candidate, the planner does NOT force the
first such candidate when the reasoning service's choice itself came from a
Recommend output: the chosen productless candidate `rec_a` stands, not
`rec_b`. -/
theorem C6_counterexample :
    has_sufficient_preferences c6_state.user_profile = true ∧
    first_recommend_candidate [c6_out] = some (c6_out, c6_candB) ∧
    select [c6_out] c6_state (some c6_llm) =
      .ok (decision_of (c6_out, c6_candA) c6_llm) ∧
    (decision_of (c6_out, c6_candA) c6_llm).selected_candidate_id ≠
      c6_candB.candidate_id :=
  ⟨rfl, rfl, rfl, by decide⟩

/-- C6 amended: the override forces the first product-carrying Recommend
candidate only when the reasoning service's chosen candidate belongs to an
output whose act is not "recommend"; then the decision is exactly that
forced candidate with its act and verbatim response. -/
theorem C6_theorem (outputs : List AgentOutput) (state : ConversationState)
    (llm : PlannerLLMOutput) (so : AgentOutput) (sc : AgentCandidate)
    (o : AgentOutput) (c : AgentCandidate)
    (hfind : find_candidate outputs llm.selected_candidate_id = some (so, sc))
    (hsuff : has_sufficient_preferences state.user_profile = true)
    (hact : so.act ≠ "recommend")
    (hfirst : first_recommend_candidate outputs = some (o, c)) :
    select outputs state (some llm) = .ok (decision_of (o, c) llm) := by
  have hne : outputs.isEmpty = false := by
    cases outputs with
    | nil => cases hfind
    | cons a l => rfl
  have hcond : (has_sufficient_preferences state.user_profile
      && !(so.act == "recommend")) = true := by
    simp [hsuff, hact]
  simp only [select, hne, Bool.false_eq_true, if_false, hfind]
  rw [if_pos hcond, hfirst]
  rfl

/-- C6 witness: a concrete run in which the service chose an ask candidate
and the override redirects the decision to the product-carrying recommend
candidate. -/
theorem C6_witness :
    select [c6_ask_out, c6_out] c6_state (some c6_llm_ask) =
      .ok (decision_of (c6_out, c6_candB) c6_llm_ask) :=
  C6_theorem [c6_ask_out, c6_out] c6_state c6_llm_ask c6_ask_out c6_ask_cand
    c6_out c6_candB (by rfl) (by rfl) (by decide) (by rfl)

/-! ## Reflection lemmas -/

theorem apply_info_fields (s : ConversationState) (info : Option InfoReflectionOutput) :
    (apply_info_reflection s info).agent_suggestions = s.agent_suggestions ∧
    (apply_info_reflection s info).corrective_experiences = s.corrective_experiences ∧
    (apply_info_reflection s info).last_recommendation_failure_turn
      = s.last_recommendation_failure_turn ∧
    (apply_info_reflection s info).turn_id = s.turn_id ∧
    (apply_info_reflection s info).act_history = s.act_history ∧
    (apply_info_reflection s info).dialogue_history = s.dialogue_history ∧
    (apply_info_reflection s info).last_user_message = s.last_user_message ∧
    (apply_info_reflection s info).last_system_response = s.last_system_response ∧
    (apply_info_reflection s info).last_recommendation_turn = s.last_recommendation_turn ∧
    (apply_info_reflection s info).session_id = s.session_id := by
  cases info with
  | none => simp [apply_info_reflection]
  | some i =>
    simp only [apply_info_reflection]
    split <;> split <;> simp

theorem apply_strategy_fields (s : ConversationState)
    (st : Option StrategyReflectionOutput) :
    (apply_strategy_reflection s st).user_profile = s.user_profile ∧
    (apply_strategy_reflection s st).browsing_history = s.browsing_history ∧
    (apply_strategy_reflection s st).turn_id = s.turn_id ∧
    (apply_strategy_reflection s st).act_history = s.act_history ∧
    (apply_strategy_reflection s st).dialogue_history = s.dialogue_history ∧
    (apply_strategy_reflection s st).last_user_message = s.last_user_message ∧
    (apply_strategy_reflection s st).last_system_response = s.last_system_response ∧
    (apply_strategy_reflection s st).last_recommendation_turn = s.last_recommendation_turn ∧
    (apply_strategy_reflection s st).session_id = s.session_id := by
  cases st with
  | none => simp [apply_strategy_reflection]
  | some i =>
    simp only [apply_strategy_reflection]
    split <;> split <;> simp

theorem apply_strategy_some (s : ConversationState) (st : StrategyReflectionOutput) :
    (apply_strategy_reflection s (some st)).agent_suggestions =
      (if st.suggestions.isEmpty then s.agent_suggestions
       else normalize_suggestions st.suggestions) ∧
    (apply_strategy_reflection s (some st)).corrective_experiences =
      (if st.corrective_experiences.isEmpty then s.corrective_experiences
       else takeLast 20 (s.corrective_experiences ++ st.corrective_experiences)) ∧
    (apply_strategy_reflection s (some st)).last_recommendation_failure_turn
      = some s.turn_id := by
  simp only [apply_strategy_reflection]
  split <;> split <;> simp_all

theorem should_strategy_reflect_iff (s : ConversationState)
    (fail : Option FailureDetectionOutput) :
    should_strategy_reflect s fail = true ↔
    (s.act_history.getLast? = some "recommend" ∧
     (fail.getD { failed := false }).failed = true) := by
  unfold should_strategy_reflect
  cases h : s.act_history.getLast? with
  | none => simp
  | some a => simp [Bool.and_eq_true, beq_iff_eq]

theorem reflect_state_eq (s : ConversationState) (fb : String)
    (info : Option InfoReflectionOutput) (strat : Option StrategyReflectionOutput)
    (fail : Option FailureDetectionOutput) :
    (reflect s fb info strat fail).1 =
      apply_strategy_reflection (apply_info_reflection s info)
        (if should_strategy_reflect s fail then strat else none) := rfl

/-! ## C7: strategy-reflection gating and effects -/

/-- C7: strategy reflection mutates state only when the last selected act was
"recommend" and the failure verdict judged the feedback a rejection; when it
runs and the service returns output, suggestions fully replace
`agent_suggestions`, corrective experiences are appended and capped at the
last 20, and the failure marker is set to the current `turn_id`; a service
failure in either sub-step (`none` oracle) leaves that sub-step's fields
untouched instead of raising. -/
theorem C7_theorem (s : ConversationState) (fb : String)
    (info : Option InfoReflectionOutput) (strat : Option StrategyReflectionOutput)
    (fail : Option FailureDetectionOutput) :
    (¬ (s.act_history.getLast? = some "recommend" ∧
        (fail.getD { failed := false }).failed = true) →
      ((reflect s fb info strat fail).1.agent_suggestions = s.agent_suggestions ∧
       (reflect s fb info strat fail).1.corrective_experiences
         = s.corrective_experiences ∧
       (reflect s fb info strat fail).1.last_recommendation_failure_turn
         = s.last_recommendation_failure_turn)) ∧
    ((s.act_history.getLast? = some "recommend" ∧
        (fail.getD { failed := false }).failed = true) →
      ∀ st, strat = some st →
        ((st.suggestions ≠ [] →
           (reflect s fb info strat fail).1.agent_suggestions
             = normalize_suggestions st.suggestions) ∧
         (st.suggestions = [] →
           (reflect s fb info strat fail).1.agent_suggestions
             = s.agent_suggestions) ∧
         (st.corrective_experiences ≠ [] →
           (reflect s fb info strat fail).1.corrective_experiences
             = takeLast 20 (s.corrective_experiences ++ st.corrective_experiences)) ∧
         (reflect s fb info strat fail).1.last_recommendation_failure_turn
           = some s.turn_id)) ∧
    (strat = none →
      ((reflect s fb info strat fail).1.agent_suggestions = s.agent_suggestions ∧
       (reflect s fb info strat fail).1.corrective_experiences
         = s.corrective_experiences ∧
       (reflect s fb info strat fail).1.last_recommendation_failure_turn
         = s.last_recommendation_failure_turn)) ∧
    (info = none →
      ((reflect s fb info strat fail).1.user_profile = s.user_profile ∧
       (reflect s fb info strat fail).1.browsing_history = s.browsing_history)) := by
  have hinfo := apply_info_fields s info
  refine ⟨?_, ?_, ?_, ?_⟩
  · intro hnot
    have hb : should_strategy_reflect s fail = false := by
      cases hsb : should_strategy_reflect s fail with
      | false => rfl
      | true => exact absurd ((should_strategy_reflect_iff s fail).mp hsb) hnot
    rw [reflect_state_eq, hb]
    simp only [Bool.false_eq_true, if_false, apply_strategy_reflection]
    exact ⟨hinfo.1, hinfo.2.1, hinfo.2.2.1⟩
  · intro hcond st hst
    have hb : should_strategy_reflect s fail = true :=
      (should_strategy_reflect_iff s fail).mpr hcond
    subst hst
    rw [reflect_state_eq, hb]
    simp only [if_true]
    have hsome := apply_strategy_some (apply_info_reflection s info) st
    refine ⟨?_, ?_, ?_, ?_⟩
    · intro hne
      rw [hsome.1, if_neg (by simpa [List.isEmpty_iff] using hne)]
    · intro he
      rw [hsome.1, if_pos (by simp [he]), hinfo.1]
    · intro hne
      rw [hsome.2.1, if_neg (by simpa [List.isEmpty_iff] using hne), hinfo.2.1]
    · rw [hsome.2.2, hinfo.2.2.2.1]
  · intro hstrat
    subst hstrat
    rw [reflect_state_eq]
    have : (if should_strategy_reflect s fail then
        (none : Option StrategyReflectionOutput) else none) = none := by
      split <;> rfl
    rw [this]
    simp only [apply_strategy_reflection]
    exact ⟨hinfo.1, hinfo.2.1, hinfo.2.2.1⟩
  · intro hinfo_none
    subst hinfo_none
    rw [reflect_state_eq]
    have hstr := apply_strategy_fields (apply_info_reflection s none)
      (if should_strategy_reflect s fail then strat else none)
    simp only [apply_info_reflection] at hstr
    exact ⟨hstr.1, hstr.2.1⟩

/-- C7 witness: a concrete rejected recommendation replaces the suggestion
map, appends the corrective experience, and stamps the failure marker. -/
theorem C7_witness :
    (reflect w7_state "no, I hate it" none (some w7_strat)
        (some { failed := true })).1.agent_suggestions
      = normalize_suggestions w7_strat.suggestions ∧
    (reflect w7_state "no, I hate it" none (some w7_strat)
        (some { failed := true })).1.corrective_experiences
      = takeLast 20 (w7_state.corrective_experiences ++ w7_strat.corrective_experiences) ∧
    (reflect w7_state "no, I hate it" none (some w7_strat)
        (some { failed := true })).1.last_recommendation_failure_turn
      = some w7_state.turn_id := by
  have h := (C7_theorem w7_state "no, I hate it" none (some w7_strat)
    (some { failed := true })).2.1 ⟨by rfl, by rfl⟩ w7_strat rfl
  exact ⟨h.1 (by decide), h.2.2.1 (by decide), h.2.2.2⟩

/-! ## C1: abort behaviour of a turn -/

theorem reflect_before_preserves (s : ConversationState) (msg : String)
    (o : TurnOracles) :
    (reflect_before s msg o).turn_id = s.turn_id ∧
    (reflect_before s msg o).act_history = s.act_history ∧
    (reflect_before s msg o).dialogue_history = s.dialogue_history ∧
    (reflect_before s msg o).last_user_message = s.last_user_message ∧
    (reflect_before s msg o).last_system_response = s.last_system_response ∧
    (reflect_before s msg o).last_recommendation_turn = s.last_recommendation_turn := by
  unfold reflect_before
  split
  · rw [reflect_state_eq]
    have hi := apply_info_fields s o.info
    have hs := apply_strategy_fields (apply_info_reflection s o.info)
      (if should_strategy_reflect s o.failure then o.strategy else none)
    exact ⟨hs.2.2.1.trans hi.2.2.2.1,
      hs.2.2.2.1.trans hi.2.2.2.2.1,
      hs.2.2.2.2.1.trans hi.2.2.2.2.2.1,
      hs.2.2.2.2.2.1.trans hi.2.2.2.2.2.2.1,
      hs.2.2.2.2.2.2.1.trans hi.2.2.2.2.2.2.2.1,
      hs.2.2.2.2.2.2.2.1.trans hi.2.2.2.2.2.2.2.2.1⟩
  · exact ⟨rfl, rfl, rfl, rfl, rfl, rfl⟩

/-- C1 counterexample: the claim that an aborting turn leaves the
ConversationState exactly as before is false — with a previous exchange on
record, a successful preference reflection followed by a planner failure
leaves the merged `user_profile` committed on the caller's state. -/
theorem C1_counterexample :
    (run_turn c1_state [] "something cheap" c1_oracles).1 =
      .error "Planner LLM failed to return valid output" ∧
    (run_turn c1_state [] "something cheap" c1_oracles).2.1 ≠ c1_state ∧
    (run_turn c1_state [] "something cheap" c1_oracles).2.1.user_profile =
      [("category", "knives")] ∧
    c1_state.user_profile = [] :=
  ⟨rfl, by decide, rfl, rfl⟩

/-- C1 amended: when a turn aborts (any agent or planner failure), none of
the finalize bookkeeping is committed — `turn_id`, `act_history`,
`dialogue_history`, `last_user_message`, `last_system_response`, and
`last_recommendation_turn` are exactly as before the turn — but merges made
by the reflect-before step (user_profile, browsing_history,
agent_suggestions, corrective_experiences, failure marker) may persist. -/
theorem C1_theorem (s : ConversationState) (cache : List RetrievedItem)
    (msg : String) (o : TurnOracles) (e : String) (s2 : ConversationState)
    (c2 : List RetrievedItem)
    (h : run_turn s cache msg o = (.error e, s2, c2)) :
    s2.turn_id = s.turn_id ∧ s2.act_history = s.act_history ∧
    s2.dialogue_history = s.dialogue_history ∧
    s2.last_user_message = s.last_user_message ∧
    s2.last_system_response = s.last_system_response ∧
    s2.last_recommendation_turn = s.last_recommendation_turn := by
  have hpres := reflect_before_preserves s msg o
  simp only [run_turn] at h
  cases hrec : recommend_run cache msg (reflect_before s msg o)
      o.recRetrieval o.recLLM with
  | error e0 =>
    rw [hrec] at h
    simp only [Prod.mk.injEq] at h
    obtain ⟨-, h2, -⟩ := h
    subst h2
    exact hpres
  | ok pr =>
    obtain ⟨rec_out, cache2⟩ := pr
    rw [hrec] at h
    dsimp only at h
    cases hsel : select
        [ask_run msg (reflect_before s msg o) o.askLLM, rec_out,
         chitchat_run msg (reflect_before s msg o) o.chatLLM]
        (reflect_before s msg o) o.plannerLLM with
    | error e1 =>
      rw [hsel] at h
      simp only [Prod.mk.injEq] at h
      obtain ⟨-, h2, -⟩ := h
      subst h2
      exact hpres
    | ok d =>
      rw [hsel] at h
      simp only [Prod.mk.injEq] at h
      exact Except.noConfusion h.1

/-- C1 witness: the amended theorem applied to the concrete aborting run. -/
theorem C1_witness :
    (run_turn c1_state [] "something cheap" c1_oracles).2.1.turn_id = c1_state.turn_id ∧
    (run_turn c1_state [] "something cheap" c1_oracles).2.1.act_history = c1_state.act_history ∧
    (run_turn c1_state [] "something cheap" c1_oracles).2.1.dialogue_history = c1_state.dialogue_history ∧
    (run_turn c1_state [] "something cheap" c1_oracles).2.1.last_user_message = c1_state.last_user_message ∧
    (run_turn c1_state [] "something cheap" c1_oracles).2.1.last_system_response = c1_state.last_system_response ∧
    (run_turn c1_state [] "something cheap" c1_oracles).2.1.last_recommendation_turn = c1_state.last_recommendation_turn :=
  C1_theorem c1_state [] "something cheap" c1_oracles
    "Planner LLM failed to return valid output"
    (run_turn c1_state [] "something cheap" c1_oracles).2.1
    (run_turn c1_state [] "something cheap" c1_oracles).2.2
    (by rfl)

/-! ## Bounded-buffer and finalize lemmas -/

theorem takeLast_length {α : Type} (n : Nat) (l : List α) :
    (takeLast n l).length = l.length - (l.length - n) := by
  simp [takeLast]

theorem capList_length {α : Type} (cap : Nat) (l : List α) :
    (capList cap l).length = min cap l.length := by
  unfold capList
  split
  · rw [takeLast_length]
    omega
  · omega

theorem record_act_eq (s : ConversationState) (act : String) :
    (record_act s act).act_history = capList 50 (s.act_history ++ [act]) := rfl

theorem append_dialogue_eq (s : ConversationState) (u r : String) (act : Option String) :
    (append_dialogue s u r act).dialogue_history =
      capList 50 (s.dialogue_history ++
        [{ user := u, system := r, act := if truthy act then act else none }]) := rfl

theorem finalize_state_fields (c : ConversationState) (d : PlannerDecision)
    (msg : String) :
    (finalize_state c d msg).act_history
      = capList 50 (c.act_history ++ [d.selected_act]) ∧
    (finalize_state c d msg).dialogue_history
      = capList 50 (c.dialogue_history ++
          [{ user := msg, system := d.selected_response,
             act := if truthy (some d.selected_act) then some d.selected_act
                    else none }]) ∧
    (finalize_state c d msg).turn_id = c.turn_id + 1 ∧
    (finalize_state c d msg).corrective_experiences = c.corrective_experiences ∧
    (d.selected_act = "recommend" →
      (finalize_state c d msg).last_recommendation_turn
        = some ((finalize_state c d msg).turn_id)) := by
  unfold finalize_state
  by_cases hrec : (d.selected_act == "recommend") = true
  · rw [if_pos hrec]
    exact ⟨rfl, rfl, rfl, rfl, fun _ => rfl⟩
  · rw [if_neg hrec]
    refine ⟨rfl, rfl, rfl, rfl, fun hr => absurd (beq_iff_eq.mpr hr) hrec⟩

theorem ask_run_act (m : String) (s : ConversationState)
    (l : Option AgentLLMOutput) : (ask_run m s l).act = "ask" := by
  cases l <;> rfl

theorem chitchat_run_act (m : String) (s : ConversationState)
    (l : Option AgentLLMOutput) : (chitchat_run m s l).act = "chitchat" := by
  cases l <;> rfl

theorem recommend_run_act (cache : List RetrievedItem) (m : String)
    (s : ConversationState) (r : Except String (List RetrievedItem))
    (l : Option AgentLLMOutput) (out : AgentOutput) (cache2 : List RetrievedItem)
    (h : recommend_run cache m s r l = .ok (out, cache2)) :
    out.act = "recommend" := by
  cases r with
  | error e => exact Except.noConfusion h
  | ok retrieved =>
    simp only [recommend_run] at h
    have := congrArg Prod.fst (Except.ok.inj h)
    exact (congrArg AgentOutput.act this).symm.trans rfl

theorem select_ok_mem (outputs : List AgentOutput) (state : ConversationState)
    (llmOut : Option PlannerLLMOutput) (d : PlannerDecision)
    (h : select outputs state llmOut = .ok d) :
    ∃ o ∈ outputs, ∃ c ∈ o.candidates,
      d.selected_act = o.act ∧ d.selected_candidate_id = c.candidate_id ∧
      d.selected_response = c.response := by
  by_cases hout : outputs = []
  · subst hout
    simp [select] at h
  · have hne : outputs.isEmpty = false := by
      cases outputs with
      | nil => exact absurd rfl hout
      | cons a l => rfl
    cases llmOut with
    | none => simp [select, hne] at h
    | some llm =>
      cases hfind : find_candidate outputs llm.selected_candidate_id with
      | none => simp [select, hne, hfind] at h
      | some pr =>
        obtain ⟨o0, c0⟩ := pr
        have hmem0 := find_candidate_some _ _ _ _ hfind
        simp only [select, hne, Bool.false_eq_true, if_false, hfind] at h
        by_cases hifc : (has_sufficient_preferences state.user_profile
            && !(o0.act == "recommend")) = true
        · rw [if_pos hifc] at h
          cases hfr : first_recommend_candidate outputs with
          | some pr1 =>
            obtain ⟨o1, c1⟩ := pr1
            rw [hfr] at h
            have hmem1 := first_recommend_some _ _ _ hfr
            have hd : d = decision_of (o1, c1) llm := by
              simpa using (Except.ok.inj h).symm
            subst hd
            exact ⟨o1, hmem1.1, c1, hmem1.2.1, rfl, rfl, rfl⟩
          | none =>
            rw [hfr] at h
            have hd : d = decision_of (o0, c0) llm := by
              simpa using (Except.ok.inj h).symm
            subst hd
            exact ⟨o0, hmem0.1, c0, hmem0.2.1, rfl, rfl, rfl⟩
        · rw [if_neg hifc] at h
          have hd : d = decision_of (o0, c0) llm := (Except.ok.inj h).symm
          subst hd
          exact ⟨o0, hmem0.1, c0, hmem0.2.1, rfl, rfl, rfl⟩

/-! ## Turn-level lemmas -/

theorem reflect_before_corrective (s : ConversationState) (msg : String)
    (o : TurnOracles) :
    (reflect_before s msg o).corrective_experiences = s.corrective_experiences ∨
    (reflect_before s msg o).corrective_experiences.length ≤ 20 := by
  unfold reflect_before
  split
  · rw [reflect_state_eq]
    have hi := (apply_info_fields s o.info).2.1
    generalize (if should_strategy_reflect s o.failure then o.strategy else none)
      = strategy
    cases strategy with
    | none =>
      left
      simpa [apply_strategy_reflection] using hi
    | some st =>
      have h := (apply_strategy_some (apply_info_reflection s o.info) st).2.1
      by_cases hemp : st.corrective_experiences.isEmpty = true
      · left
        rw [h, if_pos hemp]
        exact hi
      · right
        rw [h, if_neg hemp]
        have := takeLast_length 20
          ((apply_info_reflection s o.info).corrective_experiences
            ++ st.corrective_experiences)
        omega
  · left
    rfl

theorem run_turn_state (s : ConversationState) (cache : List RetrievedItem)
    (msg : String) (o : TurnOracles) :
    (run_turn s cache msg o).2.1 = reflect_before s msg o ∨
    ∃ d, (run_turn s cache msg o).1 = .ok d ∧
      (run_turn s cache msg o).2.1
        = finalize_state (reflect_before s msg o) d msg := by
  simp only [run_turn]
  cases hrec : recommend_run cache msg (reflect_before s msg o)
      o.recRetrieval o.recLLM with
  | error e0 => exact Or.inl rfl
  | ok pr =>
    obtain ⟨rec_out, cache2⟩ := pr
    dsimp only
    cases hsel : select
        [ask_run msg (reflect_before s msg o) o.askLLM, rec_out,
         chitchat_run msg (reflect_before s msg o) o.chatLLM]
        (reflect_before s msg o) o.plannerLLM with
    | error e1 => exact Or.inl rfl
    | ok d0 => exact Or.inr ⟨d0, rfl, rfl⟩

theorem run_turn_ok_eq (s : ConversationState) (cache : List RetrievedItem)
    (msg : String) (o : TurnOracles) (d : PlannerDecision)
    (s2 : ConversationState) (c2 : List RetrievedItem)
    (h : run_turn s cache msg o = (.ok d, s2, c2)) :
    s2 = finalize_state (reflect_before s msg o) d msg ∧
    (d.selected_act = "ask" ∨ d.selected_act = "recommend" ∨
     d.selected_act = "chitchat") := by
  simp only [run_turn] at h
  cases hrec : recommend_run cache msg (reflect_before s msg o)
      o.recRetrieval o.recLLM with
  | error e0 =>
    rw [hrec] at h
    simp only [Prod.mk.injEq] at h
    exact Except.noConfusion h.1
  | ok pr =>
    obtain ⟨rec_out, cache2⟩ := pr
    rw [hrec] at h
    dsimp only at h
    cases hsel : select
        [ask_run msg (reflect_before s msg o) o.askLLM, rec_out,
         chitchat_run msg (reflect_before s msg o) o.chatLLM]
        (reflect_before s msg o) o.plannerLLM with
    | error e1 =>
      rw [hsel] at h
      simp only [Prod.mk.injEq] at h
      exact Except.noConfusion h.1
    | ok d0 =>
      rw [hsel] at h
      simp only [Prod.mk.injEq] at h
      obtain ⟨hd, hs2, -⟩ := h
      cases Except.ok.inj hd
      refine ⟨hs2.symm, ?_⟩
      obtain ⟨oo, hoo, c, hc, hact, -⟩ := select_ok_mem _ _ _ _ hsel
      simp only [List.mem_cons, List.mem_singleton, List.not_mem_nil, or_false] at hoo
      rcases hoo with rfl | rfl | rfl
      · left
        rw [hact, ask_run_act]
      · right; left
        rw [hact, recommend_run_act cache msg (reflect_before s msg o)
          o.recRetrieval o.recLLM _ _ hrec]
      · right; right
        rw [hact, chitchat_run_act]

theorem run_turn_inv (s : ConversationState) (cache : List RetrievedItem)
    (msg : String) (o : TurnOracles)
    (h1 : s.act_history.length ≤ 50) (h2 : s.dialogue_history.length ≤ 50)
    (h3 : s.corrective_experiences.length ≤ 20) :
    (run_turn s cache msg o).2.1.act_history.length ≤ 50 ∧
    (run_turn s cache msg o).2.1.dialogue_history.length ≤ 50 ∧
    (run_turn s cache msg o).2.1.corrective_experiences.length ≤ 20 := by
  have hpres := reflect_before_preserves s msg o
  have hcor20 : (reflect_before s msg o).corrective_experiences.length ≤ 20 := by
    rcases reflect_before_corrective s msg o with he | hle
    · rw [he]; exact h3
    · exact hle
  rcases run_turn_state s cache msg o with hs | ⟨d, -, hs⟩
  · exact ⟨by rw [hs, hpres.2.1]; exact h1,
      by rw [hs, hpres.2.2.1]; exact h2,
      by rw [hs]; exact hcor20⟩
  · have hf := finalize_state_fields (reflect_before s msg o) d msg
    refine ⟨?_, ?_, ?_⟩
    · rw [hs, hf.1, capList_length]
      exact Nat.min_le_left _ _
    · rw [hs, hf.2.1, capList_length]
      exact Nat.min_le_left _ _
    · rw [hs, hf.2.2.2.1]
      exact hcor20

theorem run_turns_inv (steps : List (String × TurnOracles)) :
    ∀ (s : ConversationState) (cache : List RetrievedItem),
    s.act_history.length ≤ 50 → s.dialogue_history.length ≤ 50 →
    s.corrective_experiences.length ≤ 20 →
    ((run_turns s cache steps).1.act_history.length ≤ 50 ∧
     (run_turns s cache steps).1.dialogue_history.length ≤ 50 ∧
     (run_turns s cache steps).1.corrective_experiences.length ≤ 20) := by
  induction steps with
  | nil =>
    intro s cache h1 h2 h3
    exact ⟨h1, h2, h3⟩
  | cons step rest ih =>
    intro s cache h1 h2 h3
    obtain ⟨msg, o⟩ := step
    have h := run_turn_inv s cache msg o h1 h2 h3
    simpa [run_turns] using ih _ _ h.1 h.2.1 h.2.2

/-! ## C8: bounded histories and per-turn bookkeeping -/

/-- C8: a successfully completed turn appends exactly one entry to
`act_history` and one to `dialogue_history` (oldest evicted first at the cap
of 50), increments `turn_id` by exactly one, and stamps
`last_recommendation_turn` with the new `turn_id` when the selected act is
"recommend"; `corrective_experiences` stays within 20; and over any sequence
of turns the three bounded sequences never exceed their caps. -/
theorem C8_theorem (s : ConversationState) (cache : List RetrievedItem)
    (msg : String) (o : TurnOracles) (d : PlannerDecision)
    (s2 : ConversationState) (c2 : List RetrievedItem)
    (hInv : s.act_history.length ≤ 50 ∧ s.dialogue_history.length ≤ 50 ∧
      s.corrective_experiences.length ≤ 20)
    (h : run_turn s cache msg o = (.ok d, s2, c2)) :
    s2.act_history = capList 50 (s.act_history ++ [d.selected_act]) ∧
    s2.dialogue_history = capList 50 (s.dialogue_history ++
      [{ user := msg, system := d.selected_response,
         act := some d.selected_act }]) ∧
    s2.turn_id = s.turn_id + 1 ∧
    (d.selected_act = "recommend" →
      s2.last_recommendation_turn = some s2.turn_id) ∧
    s2.act_history.length ≤ 50 ∧ s2.dialogue_history.length ≤ 50 ∧
    s2.corrective_experiences.length ≤ 20 ∧
    (∀ (s0 : ConversationState) (cache0 : List RetrievedItem)
        (steps : List (String × TurnOracles)),
      s0.act_history.length ≤ 50 → s0.dialogue_history.length ≤ 50 →
      s0.corrective_experiences.length ≤ 20 →
      ((run_turns s0 cache0 steps).1.act_history.length ≤ 50 ∧
       (run_turns s0 cache0 steps).1.dialogue_history.length ≤ 50 ∧
       (run_turns s0 cache0 steps).1.corrective_experiences.length ≤ 20)) := by
  obtain ⟨hs2, hacts⟩ := run_turn_ok_eq s cache msg o d s2 c2 h
  have hpres := reflect_before_preserves s msg o
  have hf := finalize_state_fields (reflect_before s msg o) d msg
  have hact_ne : truthy (some d.selected_act) = true := by
    rcases hacts with ha | ha | ha <;> rw [ha] <;> rfl
  have hinvs := run_turn_inv s cache msg o hInv.1 hInv.2.1 hInv.2.2
  rw [h] at hinvs
  refine ⟨?_, ?_, ?_, ?_, hinvs.1, hinvs.2.1, hinvs.2.2, ?_⟩
  · rw [hs2, hf.1, hpres.2.1]
  · rw [hs2, hf.2.1, hpres.2.2.1, if_pos hact_ne]
  · rw [hs2, hf.2.2.1, hpres.1]
  · intro hr
    rw [hs2, hf.2.2.2.2 hr]
  · exact fun s0 cache0 steps => run_turns_inv steps s0 cache0

/-- C8 witness: the concrete successful ask turn increments `turn_id` from 0
to 1 and appends exactly its act and exchange. -/
theorem C8_witness :
    (run_turn w8_state [] "hi" w8_oracles).2.1.act_history
      = capList 50 (w8_state.act_history ++ [w8_decision.selected_act]) ∧
    (run_turn w8_state [] "hi" w8_oracles).2.1.turn_id = w8_state.turn_id + 1 :=
  have h := C8_theorem w8_state [] "hi" w8_oracles w8_decision
    (run_turn w8_state [] "hi" w8_oracles).2.1
    (run_turn w8_state [] "hi" w8_oracles).2.2
    (by decide) (by rfl)
  ⟨h.1, h.2.2.1⟩

/-! ## C3: the low-signal gate on the recommend fallback cache -/

/-- C3: evaluation at the failing input.  The message "show me gaming
laptops" is not low-signal, retrieval returns nothing, and the agent's cache
holds a product from a prior turn; `RecommendingAgent.run` nevertheless
reuses the cached product (candidate carries it, score 0.9) instead of the
empty-result apology at score 0 with no products — the `elif` in lines 51-54
makes the low-signal gate unreachable whenever the cache is non-empty. -/
theorem C3_theorem :
    is_low_signal "show me gaming laptops" = false ∧
    (recommend_run [c3_cached] "show me gaming laptops" c3_state
        (.ok []) none).map (fun r => r.1.candidates.map (fun c => c.products))
      = .ok [[to_product_candidate c3_cached]] ∧
    (recommend_run [c3_cached] "show me gaming laptops" c3_state
        (.ok []) none).map (fun r => r.1.candidates.map (fun c => c.score))
      = .ok [9/10] ∧
    (recommend_run [c3_cached] "show me gaming laptops" c3_state
        (.ok []) none).map (fun r => r.2) = .ok [c3_cached] :=
  ⟨by decide, rfl, rfl, rfl⟩

/-! ## C10: the fallback cache leaks across sessions -/

/-- C10: the recommend agent's last-products cache is instance state, not
session state — a second session's turn with empty retrieval surfaces
products that originated in a different session's retrieval. -/
theorem C10_theorem (s1 s2 : ConversationState) (msg1 msg2 : String)
    (items : List RetrievedItem) (llm1 llm2 : Option AgentLLMOutput)
    (out1 : AgentOutput) (cache1 : List RetrievedItem)
    (out2 : AgentOutput) (cache2 : List RetrievedItem)
    (hsess : s1.session_id ≠ s2.session_id)
    (hitems : items ≠ [])
    (h1 : recommend_run [] msg1 s1 (.ok items) llm1 = .ok (out1, cache1))
    (h2 : recommend_run cache1 msg2 s2 (.ok []) llm2 = .ok (out2, cache2)) :
    cache1 = items ∧
    out2.candidates ≠ [] ∧
    ∀ c ∈ out2.candidates, c.products = items.map to_product_candidate := by
  have hie : items.isEmpty = false := by
    cases items with
    | nil => exact absurd rfl hitems
    | cons a l => rfl
  have hpe : (items.map to_product_candidate).isEmpty = false := by
    cases items with
    | nil => exact absurd rfl hitems
    | cons a l => rfl
  simp only [recommend_run, hie, List.isEmpty_nil, Bool.false_and,
    Bool.and_false, Bool.not_true, Bool.false_eq_true, if_false, hpe,
    Bool.not_false, Bool.and_true, Bool.true_and, if_true] at h1
  have hc1 : cache1 = items := by
    have := congrArg Prod.snd (Except.ok.inj h1)
    simpa [hie] using this.symm
  subst hc1
  simp only [recommend_run, hie, List.isEmpty_nil, Bool.not_false,
    Bool.and_true, Bool.true_and, if_true, hpe, Bool.false_eq_true,
    if_false] at h2
  have hpair := Except.ok.inj h2
  rw [Prod.mk.injEq] at hpair
  obtain ⟨hout2, -⟩ := hpair
  refine ⟨rfl, ?_, ?_⟩
  · rw [← hout2]
    dsimp only
    cases llm2 with
    | none => simp
    | some l =>
      by_cases hl : l.candidates.isEmpty = true
      · simp [hl]
      · have hlne : l.candidates ≠ [] := by
          intro he
          rw [he] at hl
          exact hl rfl
        simp [hl, hlne]
  · intro c hc
    rw [← hout2] at hc
    dsimp only at hc
    cases llm2 with
    | none =>
      simp at hc
      rw [hc]
    | some l =>
      by_cases hl : l.candidates.isEmpty = true
      · simp [hl] at hc
        rw [hc]
      · simp only [hl, Bool.false_eq_true, if_false] at hc
        simp at hc
        obtain ⟨ic, w, -, rfl⟩ := hc
        rfl

/-- C10 witness: a product retrieved in session "alice" resurfaces in the
output of a turn for session "bob" whose own retrieval returned nothing. -/
theorem C10_witness :
    [w10_item] = [w10_item] ∧ w10_out2.candidates ≠ [] ∧
    ∀ c ∈ w10_out2.candidates, c.products = [w10_item].map to_product_candidate :=
  C10_theorem w10_s1 w10_s2 "laptops" "anything else" [w10_item] none none
    w10_out1 [w10_item] w10_out2 [w10_item]
    (by decide) (List.cons_ne_nil _ _) (by rfl) (by rfl)

/-! ## C5: retrieval ordering -/

theorem c5_merged_eq :
    merged_rows (1/2) (1/2) [("P1", 4/5)] [("P2", 3/10)] =
      [⟨"P1", 1, 0, 1/2⟩, ⟨"P2", 0, 1, 1/2⟩] := by
  have h1 : (("P2" : String) == "P1") = false := by decide
  have h2 : (!("P1" : String) == "P2") = true := by decide
  simp only [merged_rows, minmax_norm, full_outer_join, listMax, listMin]
  norm_num [List.find?, List.filter, h1, h2]

/-- C5 counterexample: the two scenario-C products tie at fusion score 1/2,
and the SQL `ORDER BY final_score DESC LIMIT k` admits BOTH orders — in
particular the order P2-before-P1 is a valid `hybrid_search` output, yet it
differs from the id-tie-broken ordering the claim asserts, so the output is
neither deterministic nor id-tie-broken. -/
theorem C5_counterexample :
    is_hybrid_output (1/2) (1/2) 10 [("P1", 4/5)] [("P2", 3/10)]
      [⟨"P2", 0, 1, 1/2⟩, ⟨"P1", 1, 0, 1/2⟩] ∧
    [(⟨"P2", 0, 1, 1/2⟩ : MergedRow), ⟨"P1", 1, 0, 1/2⟩] ≠
      spec_hybrid_output (1/2) (1/2) 10 [("P1", 4/5)] [("P2", 3/10)] := by
  have hb : spec_row_before ⟨"P1", 1, 0, 1/2⟩ ⟨"P2", 0, 1, 1/2⟩ = true := by
    simp [spec_row_before]
    decide
  constructor
  · refine ⟨[⟨"P2", 0, 1, 1/2⟩, ⟨"P1", 1, 0, 1/2⟩], ?_, ?_, rfl⟩
    · rw [c5_merged_eq]
      exact List.Perm.swap _ _ _
    · simp [List.pairwise_cons]
  · intro h
    have hspec : spec_hybrid_output (1/2) (1/2) 10 [("P1", 4/5)] [("P2", 3/10)]
        = [⟨"P1", 1, 0, 1/2⟩, ⟨"P2", 0, 1, 1/2⟩] := by
      unfold spec_hybrid_output
      rw [c5_merged_eq]
      simp only [spec_sort_rows, spec_insert_row]
      rw [hb]
      simp
    rw [hspec] at h
    have hh := congrArg (List.map MergedRow.id) h
    simp at hh

/-- C5 amended: every valid `hybrid_search` output is ordered descending by
the fusion score `alpha*dense_norm + beta*sparse_norm` over the min-max
normalised full outer join and is a `k`-truncation drawn from the merged
rows; but the SQL fixes no order among rows with equal fusion score (no id
tie-break), so only the multiset and the descending order are determined. -/
theorem C5_theorem (alpha beta : ℚ) (k : Nat) (dense sparse : List (String × ℚ))
    (out : List MergedRow)
    (h : is_hybrid_output alpha beta k dense sparse out) :
    out.Pairwise (fun a b => b.final_score ≤ a.final_score) ∧
    out.length = min k (merged_rows alpha beta dense sparse).length ∧
    List.Subperm out (merged_rows alpha beta dense sparse) := by
  obtain ⟨l, hperm, hsorted, rfl⟩ := h
  refine ⟨?_, ?_, ?_⟩
  · exact List.Pairwise.sublist (List.take_sublist k l) hsorted
  · rw [List.length_take, hperm.length_eq]
  · exact ((List.take_sublist k l).subperm).trans hperm.symm.subperm

/-- C5 witness: the amended theorem applied to the id-ordered valid output of
the scenario-C catalog. -/
theorem C5_witness :
    ([(⟨"P1", 1, 0, 1/2⟩ : MergedRow), ⟨"P2", 0, 1, 1/2⟩]).Pairwise
      (fun a b => b.final_score ≤ a.final_score) ∧
    ([(⟨"P1", 1, 0, 1/2⟩ : MergedRow), ⟨"P2", 0, 1, 1/2⟩]).length =
      min 10 (merged_rows (1/2) (1/2) [("P1", 4/5)] [("P2", 3/10)]).length ∧
    List.Subperm [(⟨"P1", 1, 0, 1/2⟩ : MergedRow), ⟨"P2", 0, 1, 1/2⟩]
      (merged_rows (1/2) (1/2) [("P1", 4/5)] [("P2", 3/10)]) :=
  C5_theorem (1/2) (1/2) 10 [("P1", 4/5)] [("P2", 3/10)]
    [⟨"P1", 1, 0, 1/2⟩, ⟨"P2", 0, 1, 1/2⟩]
    ⟨[⟨"P1", 1, 0, 1/2⟩, ⟨"P2", 0, 1, 1/2⟩],
     by rw [c5_merged_eq], by simp [List.pairwise_cons], rfl⟩

end Macrs
